import Mathlib

/-!
# Verification of the video-ai-creator media assembly pipeline

A shallow embedding, in Lean 4, of the media-assembly core of the
`video-ai-creator` repository, together with proofs and refutations of the
frozen specification claims C1..C10.

Conventions of the embedding:

* Python `float` durations are modelled as exact rationals (`ℚ`); the code's
  arithmetic on durations (`min`, `-`, `/`, `*`) is translated literally.
* Python strings are modelled as `List Char` where proofs manipulate them
  character by character (Python `len` counts code points, as does the
  length of a `List Char`), and as `String` for error messages.
* Fallible Python code (functions that `raise`) is modelled with
  `Except PyErr`; `PyErr` distinguishes `ValueError` from `RuntimeError` and
  carries the message string.
* MoviePy clip objects are modelled by the data the claims are about: a
  sub-clip of a source video is represented by its length (every sub-clip the
  code takes starts at time 0, via `subclip(0, t)`), an image-slideshow
  segment by its duration and fade-in/fade-out durations, and WAV audio by
  its header parameters and an abstract frame list.
* External effects (the VOICEVOX HTTP engine, the renderer, the filesystem)
  are abstracted as boolean/functional oracles passed in as inputs; the
  control flow around them is translated literally from the source.
-/

set_option autoImplicit false

namespace VideoAI

/-- Python exceptions relevant to the embedded code: `ValueError` and
`RuntimeError`, each carrying `str(e)`. -/
inductive PyErr
  | valueError : String → PyErr
  | runtimeError : String → PyErr
deriving DecidableEq, Repr

/-- The message `str(e)` of a modelled Python exception. -/
def PyErr.msg : PyErr → String
  | .valueError m => m
  | .runtimeError m => m

instance {ε α : Type} [DecidableEq ε] [DecidableEq α] : DecidableEq (Except ε α) := fun a b =>
  match a, b with
  | .error e, .error f =>
    if h : e = f then .isTrue (by rw [h]) else .isFalse (by intro hc; cases hc; exact h rfl)
  | .error _, .ok _ => .isFalse (by intro hc; cases hc)
  | .ok _, .error _ => .isFalse (by intro hc; cases hc)
  | .ok x, .ok y =>
    if h : x = y then .isTrue (by rw [h]) else .isFalse (by intro hc; cases hc; exact h rfl)

/-- Whether a modelled exception is a `RuntimeError`. -/
def PyErr.isRuntime : PyErr → Bool
  | .valueError _ => false
  | .runtimeError _ => true

/-- Python `str.startswith`-style check on character lists: `leadsList n h` is true
when `n` is an initial segment of `h`. -/
def leadsList : List Char → List Char → Bool
  | [], _ => true
  | _ :: _, [] => false
  | a :: as, b :: bs => a = b && leadsList as bs

/-- Python `needle in hay` substring test on character lists. -/
def hasSub (needle hay : List Char) : Bool :=
  hay.tails.any (leadsList needle)

/-- Python `str.lower()` restricted to the ASCII messages the code builds. -/
def lowerMsg (s : String) : List Char :=
  s.toList.map Char.toLower

/-- Python `str.isspace()` on one character: the whitespace set used by
`str.strip()` and no-argument `str.split()`.  Unlike Lean's ASCII-only
`Char.isWhitespace`, Python also treats the Unicode separators as
whitespace — in particular U+3000, the full-width ideographic space common
in Japanese text — together with `\v`, `\f`, the C1/information
separators, NEL, NBSP, and the U+2000 block. -/
def pyIsSpace (c : Char) : Bool :=
  c = ' ' || c = '\t' || c = '\n' || c = '\r' ||
  c.toNat = 0x0b || c.toNat = 0x0c ||
  c.toNat = 0x1c || c.toNat = 0x1d || c.toNat = 0x1e || c.toNat = 0x1f ||
  c.toNat = 0x85 || c.toNat = 0xa0 || c.toNat = 0x1680 ||
  (0x2000 ≤ c.toNat && c.toNat ≤ 0x200a) ||
  c.toNat = 0x2028 || c.toNat = 0x2029 || c.toNat = 0x202f ||
  c.toNat = 0x205f || c.toNat = 0x3000

/-- Python `str.strip()`: drop whitespace (in Python's sense) from both
ends. -/
def pyStrip (s : List Char) : List Char :=
  ((s.dropWhile pyIsSpace).reverse.dropWhile pyIsSpace).reverse

namespace VC
/-! ## `src/video_creator.py` -/

/-- One entry of the `videos` list handed to `VideoCreator.create_video`:
whether the dict has a `'local_path'` key, whether `os.path.exists` holds of
it, and the duration MoviePy reports for the loaded clip. -/
structure VideoAsset where
  hasLocalPath : Bool
  fileExists : Bool
  duration : ℚ
deriving DecidableEq, Repr

/-- One entry of the `images` list: whether `os.path.exists` holds of its
`'local_path'`. -/
structure ImageAsset where
  fileExists : Bool
deriving DecidableEq, Repr

/-- The `for video_info in videos` selection loop of
`_create_video_background` (video_creator.py:89-94): the first asset with a
`'local_path'` key naming an existing file. -/
def selectVideo : List VideoAsset → Option VideoAsset
  | [] => none
  | v :: vs => if v.hasLocalPath && v.fileExists then some v else selectVideo vs

/-- The `while current_duration < target_duration` loop of
`VideoCreator._loop_video` (video_creator.py:262-279), phrased on the
remaining duration `target_duration - current_duration`.  Each list element
is the length of one appended sub-clip `video_clip.subclip(0, length)`: a
full repeat has length `d` (the source clip's duration), the final element
may be a shorter remainder.  The loop only terminates for `0 < d`, which
`_create_video_background` has validated before calling `_loop_video`; the
proof of that fact is threaded as an argument. -/
def loopSegs (d : ℚ) (remaining : ℚ) (hd : 0 < d) : List ℚ :=
  if 0 < remaining then
    if d ≤ remaining then d :: loopSegs d (remaining - d) hd
    else [remaining]
  else []
termination_by (⌈remaining / d⌉).toNat
decreasing_by
  have h1 : (remaining - d) / d = remaining / d - 1 := by field_simp
  rename_i h _
  rw [h1, Int.ceil_sub_one]
  have h2 : 0 < ⌈remaining / d⌉ := Int.ceil_pos.mpr (div_pos h hd)
  omega

/-- Model of `VideoCreator._loop_video` (video_creator.py:245-309): the early
`subclip(0, target_duration)` cut when the clip is already long enough
(lines 258-260), otherwise the append loop followed by
`concatenate_videoclips`.  The result is the list of appended segment
lengths. -/
def loop_video (d D : ℚ) (hd : 0 < d) : List ℚ :=
  if D ≤ d then [D] else loopSegs d D hd

/-- Lines 122-130 of `_create_video_background`: cut the (resized) clip to
`subclip(0, duration)` when it is long enough, otherwise loop it via
`_loop_video`. -/
def adjust_video_duration (d D : ℚ) (hd : 0 < d) : List ℚ :=
  if D ≤ d then [D] else loop_video d D hd

/-- Model of `VideoCreator._create_video_background` (video_creator.py:75-147):
input validation, selection of the first valid asset, load, resize (which
preserves the duration), then the duration adjustment.  Any internal
exception is wrapped as `RuntimeError("Failed to create video background:
...")` by line 147. -/
def create_video_background (videos : List VideoAsset) (duration : ℚ) :
    Except PyErr (List ℚ) :=
  if videos.isEmpty then
    .error (.runtimeError ("Failed to create video background: No videos provided"))
  else if duration ≤ 0 then
    .error (.runtimeError ("Failed to create video background: Duration must be positive"))
  else
    match selectVideo videos with
    | none =>
        .error (.runtimeError ("Failed to create video background: No valid video files found"))
    | some v =>
        if h : v.duration ≤ 0 then
          .error (.runtimeError ("Failed to create video background: Invalid video file"))
        else
          .ok (adjust_video_duration v.duration duration (not_le.mp h))

/-- One image-slideshow segment as built by `_create_image_slideshow`
(video_creator.py:331-346): its display duration and the durations of the
`fadein`/`fadeout` effects applied to it (`0` when no fade is applied). -/
structure SlideSeg where
  dur : ℚ
  fadeinDur : ℚ
  fadeoutDur : ℚ
deriving DecidableEq, Repr

/-- The `for i, image_info in enumerate(images)` loop of
`_create_image_slideshow` (video_creator.py:324-346): images whose file does
not exist are skipped with a warning; every kept image becomes a clip of
duration `image_duration` with `fadein(0.5)` for `i > 0` and `fadeout(0.5)`
for `i < len(images) - 1`.  `i` is the index in the original list and `n`
its full length. -/
def slideClips (perDur : ℚ) (n : ℕ) : ℕ → List ImageAsset → List SlideSeg
  | _, [] => []
  | i, img :: rest =>
    if img.fileExists then
      { dur := perDur
        fadeinDur := if 0 < i then 1/2 else 0
        fadeoutDur := if i < n - 1 then 1/2 else 0 } :: slideClips perDur n (i + 1) rest
    else slideClips perDur n (i + 1) rest

/-- Model of `VideoCreator._create_image_slideshow` (video_creator.py:315-366):
`image_duration = duration / len(images)`, the clip loop, the
`concatenate_videoclips` call, and the final trim (`subclip(0, duration)`)
or last-frame extension that forces the track to the target duration.
Returns the built segments and the final track duration. -/
def create_image_slideshow (images : List ImageAsset) (duration : ℚ) :
    Except PyErr (List SlideSeg × ℚ) :=
  let perDur := duration / (images.length : ℚ)
  let clips := slideClips perDur images.length 0 images
  if clips.isEmpty then
    .error (.runtimeError ("Failed to create image slideshow: No valid images found for slideshow"))
  else
    let total := (clips.map SlideSeg.dur).sum
    let finalDur :=
      if duration < total then duration
      else if total < duration then total + (duration - total)
      else total
    .ok (clips, finalDur)

/-- Line 43 of `create_video`: `actual_duration = audio_clip.duration if
is_custom_script else min(audio_clip.duration, self.target_duration)`. -/
def actual_duration (isCustomScript : Bool) (audioDur target : ℚ) : ℚ :=
  if isCustomScript then audioDur else min audioDur target

/-- Model of `VideoCreator._handle_video_error` (video_creator.py:444-457): keyword
dispatch over the lowercased message, else
`RuntimeError(f"Video creation failed: {error}")`. -/
def handle_video_error (e : PyErr) : PyErr :=
  let m := lowerMsg e.msg
  if hasSub (("codec").toList) m then
    .runtimeError ("Video codec error. Please check MoviePy installation.")
  else if hasSub (("memory").toList) m then
    .runtimeError ("Insufficient memory for video processing.")
  else if hasSub (("permission").toList) m then
    .runtimeError ("Permission denied. Check output directory permissions.")
  else if hasSub (("disk").toList) m || hasSub (("space").toList) m then
    .runtimeError ("Insufficient disk space for video creation.")
  else
    .runtimeError ("Video creation failed: " ++ e.msg)

/-- The visual track built inside `create_video`: either a looped/cut video
background (the list of sub-clip lengths) or an image slideshow (segments
and final track duration). -/
inductive Visual
  | videoBg (segs : List ℚ)
  | slideshow (segs : List SlideSeg) (dur : ℚ)
deriving DecidableEq, Repr

/-- Duration of the built visual track (for the video background,
`concatenate_videoclips` yields the sum of the segment lengths). -/
def Visual.duration : Visual → ℚ
  | .videoBg segs => segs.sum
  | .slideshow _ d => d

/-- Which of the three intermediate media handles of `create_video`
(`audio_clip`, `video_clip`, `final_clip`) have been opened and which have
been closed by the end of the call. -/
structure RunState where
  audioOpened : Bool
  audioClosed : Bool
  visualOpened : Bool
  visualClosed : Bool
  finalOpened : Bool
  finalClosed : Bool
deriving DecidableEq, Repr

/-- State before any handle is touched. -/
def RunState.init : RunState :=
  ⟨false, false, false, false, false, false⟩

/-- The inputs of one `VideoCreator.create_video` call: the asset lists,
whether the audio file exists and its duration, the custom-script flag, the
configured target duration (`config.video_duration`), and whether the
renderer (`_render_video`) succeeds. -/
structure CreateInput where
  videos : List VideoAsset
  images : List ImageAsset
  audioExists : Bool
  audioDuration : ℚ
  isCustomScript : Bool
  targetDuration : ℚ
  renderOk : Bool

/-- Result of one `create_video` call: the Python return/raise outcome
(on success, the duration of the rendered video) and the final handle
state. -/
structure CreateOutcome where
  result : Except PyErr ℚ
  state : RunState
deriving Repr

/-- Model of `VideoCreator.create_video` (video_creator.py:19-73).  The two
`ValueError` guards run before the `try` block; inside it the audio clip is
opened, the effective duration computed, the visual track built (videos are
prioritised; the image slideshow is used only when the `videos` list is
empty), the final composite formed, the video rendered, and only then are
the three handles closed.  Any exception reaches the `except` branch, which
re-raises through `_handle_video_error` without closing anything. -/
def create_video (inp : CreateInput) : CreateOutcome :=
  if inp.videos.isEmpty && inp.images.isEmpty then
    ⟨.error (.valueError ("No videos or images provided for video creation")), RunState.init⟩
  else if !inp.audioExists then
    ⟨.error (.valueError ("Audio file not found")), RunState.init⟩
  else
    let st1 : RunState := { RunState.init with audioOpened := true }
    let dur := actual_duration inp.isCustomScript inp.audioDuration inp.targetDuration
    let visualRes : Except PyErr Visual :=
      if !inp.videos.isEmpty then
        (create_video_background inp.videos dur).map .videoBg
      else
        (create_image_slideshow inp.images dur).map (fun p => .slideshow p.1 p.2)
    match visualRes with
    | .error e => ⟨.error (handle_video_error e), st1⟩
    | .ok vis =>
        let st3 : RunState := { st1 with visualOpened := true, finalOpened := true }
        if inp.renderOk then
          ⟨.ok vis.duration,
            { st3 with audioClosed := true, visualClosed := true, finalClosed := true }⟩
        else
          ⟨.error (handle_video_error (.runtimeError ("Failed to render video: render error"))),
            st3⟩

/-- A `CreateInput` whose asset lists let the visual-track construction of
`create_video` succeed: either the `videos` list is non-empty and its first
valid entry is a playable clip of positive duration, or the `videos` list is
empty and every image file exists. -/
def validVisualSource (inp : CreateInput) : Prop :=
  (inp.videos ≠ [] ∧ ∃ v, selectVideo inp.videos = some v ∧ 0 < v.duration) ∨
  (inp.videos = [] ∧ inp.images ≠ [] ∧ ∀ a ∈ inp.images, a.fileExists = true)

end VC

namespace SG
/-! ## `src/subtitle_generator.py` -/

/-- The sentence-ending punctuation of the `re.split(r'[。！？]', line)`
pattern. -/
def sentDelim (c : Char) : Bool := c = '。' || c = '！' || c = '？'

/-- Python `text.split('\n')`: split at every newline, keeping empty
segments. -/
def splitOnNl : List Char → List Char → List (List Char)
  | [], acc => [acc.reverse]
  | c :: cs, acc =>
    if c = '\n' then acc.reverse :: splitOnNl cs []
    else splitOnNl cs (c :: acc)

/-- Python `re.split(r'[。！？]', line)`: split at every sentence delimiter,
dropping the delimiters and keeping empty segments. -/
def splitDelims : List Char → List Char → List (List Char)
  | [], acc => [acc.reverse]
  | c :: cs, acc =>
    if sentDelim c then acc.reverse :: splitDelims cs []
    else splitDelims cs (c :: acc)

/-- Python `part.endswith(('！', '？'))` (false for the empty string). -/
def endsExcl (s : List Char) : Bool :=
  match s.getLast? with
  | some c => c = '！' || c = '？'
  | none => false

/-- Model of `SubtitleGenerator._split_text_into_sentences`
(subtitle_generator.py:49-62): split into stripped non-empty lines, split
each line at sentence punctuation, re-append `'。'` to every part that does
not end in `'！'`/`'？'` (parts never do, since the delimiters were split
away), and keep only results longer than one character. -/
def split_text_into_sentences (text : List Char) : List (List Char) :=
  let lines := ((splitOnNl text []).map pyStrip).filter (fun l => l ≠ [])
  let sents := lines.foldl
    (fun acc line =>
      acc ++ (splitDelims line []).filterMap (fun part =>
        if pyStrip part = [] then none
        else some (pyStrip part ++ (if endsExcl part then [] else ['。'])))) []
  sents.filter (fun s => 1 < s.length)

/-- One subtitle cue: start time, end time and text. -/
structure Cue where
  start : ℚ
  stop : ℚ
  text : List Char
deriving DecidableEq, Repr

/-- The `for sentence in sentences` loop of
`_calculate_subtitle_timing` (subtitle_generator.py:75-89): proportional
duration with a 1-second minimum, end clamped to the total duration,
`break` once the total duration is reached. -/
def timingAux (totalChars : ℕ) (T : ℚ) : ℚ → List (List Char) → List Cue
  | _, [] => []
  | cur, s :: rest =>
    let dur := max (((s.length : ℚ) / (totalChars : ℚ)) * T) 1
    let stop := min (cur + dur) T
    ⟨cur, stop, s⟩ :: (if T ≤ stop then [] else timingAux totalChars T stop rest)

/-- Model of `SubtitleGenerator._calculate_subtitle_timing`
(subtitle_generator.py:64-91). -/
def calculate_subtitle_timing (sentences : List (List Char)) (T : ℚ) : List Cue :=
  if sentences.isEmpty then []
  else timingAux (sentences.map List.length).sum T 0 sentences

end SG

namespace VG
/-! ## `src/voice_generator.py` -/

/-- Sentence punctuation of `re.split(r'([。！？])', text)`. -/
def vDelim (c : Char) : Bool := c = '。' || c = '！' || c = '？'

/-- Comma punctuation of `re.split(r'([、，])', sentence)`. -/
def cDelim (c : Char) : Bool := c = '、' || c = '，'

/-- Python `re.split(r'([X])', text)` followed by the `for i in range(0, len, 2)`
pairing loop of `_split_text_for_voice`: each delimiter is re-attached to
the segment before it, the final segment (possibly empty) keeps no
delimiter. -/
def splitKeep (delim : Char → Bool) : List Char → List Char → List (List Char)
  | [], acc => [acc.reverse]
  | c :: cs, acc =>
    if delim c then (acc.reverse ++ [c]) :: splitKeep delim cs []
    else splitKeep delim cs (c :: acc)

/-- The inner comma loop of `_split_text_for_voice`
(voice_generator.py:166-178), one comma part at a time.  State: the chunks
emitted so far and the current chunk buffer. -/
def addPart (M : ℕ) (st : List (List Char) × List Char) (p : List Char) :
    List (List Char) × List Char :=
  if st.2.length + p.length ≤ M then (st.1, st.2 ++ p)
  else if st.2 = [] then (st.1, p)
  else (st.1 ++ [pyStrip st.2], p)

/-- The outer sentence loop of `_split_text_for_voice`
(voice_generator.py:152-178), one (delimiter-carrying) sentence at a time.
A sentence that does not fit is flushed against the current chunk when that
chunk is non-empty; only when the chunk buffer is empty is the sentence
split further at comma boundaries. -/
def addSentence (M : ℕ) (st : List (List Char) × List Char) (s : List Char) :
    List (List Char) × List Char :=
  if st.2.length + s.length ≤ M then (st.1, st.2 ++ s)
  else if st.2 ≠ [] then (st.1 ++ [pyStrip st.2], s)
  else (splitKeep cDelim s []).foldl (addPart M) st

/-- Model of `VoiceGenerator._split_text_for_voice` (voice_generator.py:141-183):
short texts pass through unchanged; otherwise the sentence loop runs, the
final buffer is flushed, and whitespace-only chunks are dropped. -/
def split_text_for_voice (text : List Char) (M : ℕ) : List (List Char) :=
  if text.length ≤ M then [text]
  else
    let st := (splitKeep vDelim text []).foldl (addSentence M) ([], [])
    let chunks := if st.2 ≠ [] then st.1 ++ [pyStrip st.2] else st.1
    chunks.filter (fun c => pyStrip c ≠ [])

/-- A character list with no Python whitespace in it (no character of the
`str.isspace()` set, U+3000 included): on such inputs `str.strip()` is the
identity. -/
def noWs (s : List Char) : Prop := ∀ c ∈ s, pyIsSpace c = false

/-- One WAV file as the `wave` module reads it: header parameters and the
frame payload (one abstract sample value per frame; a silence frame is the
all-zero frame). -/
structure WavFile where
  rate : ℕ
  width : ℕ
  channels : ℕ
  frames : List ℕ
deriving DecidableEq, Repr

/-- Number of frames, `wav_file.getnframes()`. -/
def WavFile.nframes (f : WavFile) : ℕ := f.frames.length

/-- The format compatibility check of `_combine_audio_files`
(voice_generator.py:323-326): sample rate, sample width and channel count
must match the first file's. -/
def wavMismatch (g f : WavFile) : Bool :=
  g.rate ≠ f.rate || g.width ≠ f.width || g.channels ≠ f.channels

/-- The `for i, audio_file in enumerate(audio_files)` loop of
`_combine_audio_files` (voice_generator.py:320-333): write each file's
frames, with the silence block after every file except the last, aborting
with a `RuntimeError` at the first file whose format differs from the first
file's.  `first` is the file whose parameters were read up front. -/
def combineFrames (first : WavFile) (silence : List ℕ) :
    List WavFile → Except PyErr (List ℕ)
  | [] => .ok []
  | [g] =>
    if wavMismatch g first then
      .error (.runtimeError ("Failed to combine audio files: incompatible format"))
    else .ok g.frames
  | g :: h :: rest =>
    if wavMismatch g first then
      .error (.runtimeError ("Failed to combine audio files: incompatible format"))
    else (combineFrames first silence (h :: rest)).map (fun tail => g.frames ++ silence ++ tail)

/-- Model of `VoiceGenerator._combine_audio_files` (voice_generator.py:293-338): an
empty list is a `ValueError`, a single file is copied unchanged, otherwise
the parameters of the first file are adopted and the frame loop runs with a
silence block of `int(sample_rate * 0.2)` frames (exact arithmetic:
`⌊rate / 5⌋` frames of zeros). -/
def combine_audio_files (files : List WavFile) : Except PyErr WavFile :=
  match files with
  | [] => .error (.valueError ("No audio files to combine"))
  | [f] => .ok f
  | f :: g :: rest =>
    let silence := List.replicate (f.rate / 5) 0
    (combineFrames f silence (f :: g :: rest)).map
      (fun frames => ⟨f.rate, f.width, f.channels, frames⟩)

/-- Python falsy-or-blank test `not script or not script.strip()` used by
the guards of `generate_voice` and `generate_long_voice`. -/
def blankScript (s : List Char) : Bool :=
  s.isEmpty || (pyStrip s).isEmpty

/-- One whitespace-separated word split, Python `text.split()` (no
argument): split on whitespace runs, dropping empty segments. -/
def pyWords : List Char → List Char → List (List Char)
  | [], acc => if acc = [] then [] else [acc.reverse]
  | c :: cs, acc =>
    if pyIsSpace c then
      if acc = [] then pyWords cs [] else acc.reverse :: pyWords cs []
    else pyWords cs (c :: acc)

/-- Python `str.replace(old, new)` for a single-character `old`. -/
def replaceChar (old : Char) (new : List Char) (s : List Char) : List Char :=
  s.flatMap (fun c => if c = old then new else [c])

/-- Model of `VoiceGenerator._preprocess_text` (voice_generator.py:117-139):
whitespace normalisation via `' '.join(text.split())`, pause insertion
after `。！？`, the special-character replacement table, and a final
`strip()`. -/
def preprocess_text (s : List Char) : List Char :=
  let joined := List.intercalate [' '] (pyWords s [])
  let p1 := replaceChar '。' (("。、").toList) joined
  let p2 := replaceChar '！' (("！、").toList) p1
  let p3 := replaceChar '？' (("？、").toList) p2
  let p4 := replaceChar '・' (("と").toList) p3
  let p5 := replaceChar '～' (("から").toList) p4
  let p6 := replaceChar '&' (("アンド").toList) p5
  let p7 := replaceChar '%' (("パーセント").toList) p6
  let p8 := replaceChar '…' (("。").toList) p7
  pyStrip p8

/-- The externally observable steps of one voice-generation call, in the
order they are performed. -/
inductive VAction
  | preprocessText
  | audioQuery
  | synthesize
  | saveFile
deriving DecidableEq, Repr

/-- The VOICEVOX engine and filesystem as an oracle: the outcome of the
`/audio_query` request for a given processed text, and the outcome of the
`/synthesis` request. -/
structure Voicevox where
  queryResp : List Char → Except PyErr Unit
  synthResp : Except PyErr Unit

/-- Model of `VoiceGenerator._handle_voice_error` (voice_generator.py:340-351):
keyword dispatch over the lowercased message, else
`RuntimeError(f"Voice generation failed: {error}")`. -/
def handle_voice_error (e : PyErr) : PyErr :=
  let m := lowerMsg e.msg
  if hasSub (("connection").toList) m || hasSub (("not running").toList) m then
    .runtimeError ("VOICEVOX server is not accessible. Please start VOICEVOX application.")
  else if hasSub (("timeout").toList) m then
    .runtimeError ("VOICEVOX server timeout. Please try again.")
  else if hasSub (("speaker").toList) m then
    .runtimeError ("Invalid speaker ID. Please check VOICEVOX configuration.")
  else
    .runtimeError ("Voice generation failed: " ++ e.msg)

/-- Model of `VoiceGenerator.generate_voice` (voice_generator.py:19-60): the
empty-script `ValueError` guard runs before the `try` block; inside it the
text is preprocessed, the audio query and synthesis requests are made, and
the audio file is saved.  The returned action list records the steps that
were performed, in order. -/
def generate_voice (env : Voicevox) (script : List Char) :
    Except PyErr Unit × List VAction :=
  if blankScript script then
    (.error (.valueError ("Script text cannot be empty")), [])
  else
    match env.queryResp (preprocess_text script) with
    | .error e => (.error (handle_voice_error e), [.preprocessText, .audioQuery])
    | .ok _ =>
      match env.synthResp with
      | .error e =>
          (.error (handle_voice_error e), [.preprocessText, .audioQuery, .synthesize])
      | .ok _ =>
          (.ok (), [.preprocessText, .audioQuery, .synthesize, .saveFile])

/-- The `for i, chunk in enumerate(text_chunks)` loop of
`generate_long_voice` (voice_generator.py:84-90): synthesize each chunk via
`generate_voice`, stopping at the first failure. -/
def runChunks (env : Voicevox) : List (List Char) → Except PyErr Unit × List VAction
  | [] => (.ok (), [])
  | ch :: rest =>
    match generate_voice env ch with
    | (.error e, acts) => (.error e, acts)
    | (.ok _, acts) =>
      let r := runChunks env rest
      (r.1, acts ++ r.2)

/-- Model of `VoiceGenerator.generate_long_voice` (voice_generator.py:62-115): the
same empty-script guard, then chunk splitting, per-chunk synthesis, and the
combination step that writes the final audio file. -/
def generate_long_voice (env : Voicevox) (script : List Char) (M : ℕ) :
    Except PyErr Unit × List VAction :=
  if blankScript script then
    (.error (.valueError ("Script text cannot be empty")), [])
  else
    let chunks := split_text_for_voice script M
    match runChunks env chunks with
    | (.error e, acts) => (.error (handle_voice_error e), acts)
    | (.ok _, acts) => (.ok (), acts ++ [.saveFile])

end VG

/-! ## Lemmas about the video-background loop -/

/-- Shape of the `_loop_video` output: some number of full repeats of the
source duration followed by at most one shorter remainder, and the segment
lengths account exactly for the requested duration. -/
theorem loopSegs_spec (d : ℚ) (hd : 0 < d) (r : ℚ) :
    ∃ k rem, 0 ≤ rem ∧ rem < d ∧
      VC.loopSegs d r hd = List.replicate k d ++ (if rem = 0 then [] else [rem]) ∧
      (k : ℚ) * d + rem = max r 0 := by
  induction r, hd using VC.loopSegs.induct with
  | case1 r hd hpos hle ih =>
    obtain ⟨k, rem, h0, h1, hseg, hsum⟩ := ih
    refine ⟨k + 1, rem, h0, h1, ?_, ?_⟩
    · rw [VC.loopSegs, if_pos hpos, if_pos hle, hseg, List.replicate_succ, List.cons_append]
    · have hmax : max (r - d) 0 = r - d := max_eq_left (sub_nonneg.mpr hle)
      rw [hmax] at hsum
      rw [max_eq_left (le_of_lt hpos)]
      push_cast
      linarith
  | case2 r hd hpos hnle =>
    refine ⟨0, r, le_of_lt hpos, not_le.mp hnle, ?_, ?_⟩
    · rw [VC.loopSegs, if_pos hpos, if_neg hnle, if_neg (ne_of_gt hpos)]
      simp
    · rw [max_eq_left (le_of_lt hpos)]
      push_cast
      ring
  | case3 r hd hneg =>
    refine ⟨0, 0, le_refl 0, hd, ?_, ?_⟩
    · rw [VC.loopSegs, if_neg hneg]
      simp
    · rw [max_eq_right (le_of_not_lt hneg)]
      push_cast
      ring

/-- Sum of a full-repeats-plus-remainder segment list. -/
theorem sum_replicate_rem (k : ℕ) (d rem : ℚ) :
    (List.replicate k d ++ (if rem = 0 then [] else [rem])).sum = k * d + rem := by
  by_cases h : rem = 0 <;>
    simp [h, List.sum_append, List.sum_replicate, nsmul_eq_mul]

/-- The segment lengths chosen by lines 122-130 of
`_create_video_background` sum exactly to the requested duration. -/
theorem adjust_video_duration_sum (d D : ℚ) (hd : 0 < d) (hD : 0 < D) :
    (VC.adjust_video_duration d D hd).sum = D := by
  rw [VC.adjust_video_duration, VC.loop_video]
  by_cases h : D ≤ d
  · simp [h]
  · rw [if_neg h, if_neg h]
    obtain ⟨k, rem, _, _, hseg, hsum⟩ := loopSegs_spec d hd D
    rw [hseg, sum_replicate_rem, hsum, max_eq_left (le_of_lt hD)]

/-! ## C1 -/

/-- C1: for a source clip duration `d > 0` and target `D > 0`, the
video-background builder returns exactly the first `D` seconds (the single
segment `subclip(0, D)`) when `d ≥ D`; when `d < D` it returns whole repeats
of the clip followed by at most one shorter slice cut from the clip's start,
and the segment durations sum exactly to `D`. -/
theorem claim_C1_video_background_loop (d D : ℚ) (hd : 0 < d) (hD : 0 < D) :
    (VC.adjust_video_duration d D hd).sum = D ∧
    (D ≤ d → VC.adjust_video_duration d D hd = [D]) ∧
    (d < D → ∃ k rem, 0 ≤ rem ∧ rem < d ∧
      VC.adjust_video_duration d D hd = List.replicate k d ++ (if rem = 0 then [] else [rem]) ∧
      (k : ℚ) * d + rem = D) := by
  refine ⟨adjust_video_duration_sum d D hd hD, ?_, ?_⟩
  · intro h
    rw [VC.adjust_video_duration, if_pos h]
  · intro h
    obtain ⟨k, rem, h0, h1, hseg, hsum⟩ := loopSegs_spec d hd D
    refine ⟨k, rem, h0, h1, ?_, ?_⟩
    · rw [VC.adjust_video_duration, if_neg (not_le.mpr h), VC.loop_video,
        if_neg (not_le.mpr h), hseg]
    · rw [hsum, max_eq_left (le_of_lt hD)]

/-- Witness for C1 at the claim's scenario: a 12-second clip looped to a
30-second target yields two full 12-second repeats plus one 6-second
remainder. -/
theorem claim_C1_witness :
    0 < (12 : ℚ) ∧ 0 < (30 : ℚ) ∧
    (VC.adjust_video_duration 12 30 (by norm_num)).sum = 30 ∧
    VC.adjust_video_duration 12 30 (by norm_num) = [12, 12, 6] := by
  refine ⟨by norm_num, by norm_num,
    (claim_C1_video_background_loop 12 30 (by norm_num) (by norm_num)).1, ?_⟩
  rw [VC.adjust_video_duration, VC.loop_video]
  norm_num
  rw [VC.loopSegs]
  norm_num
  rw [VC.loopSegs]
  norm_num
  rw [VC.loopSegs]
  norm_num

/-! ## Lemmas about the image slideshow -/

/-- When every image file exists, the clip loop of
`_create_image_slideshow` keeps every image, in order, with the fades
determined by its position in the original list. -/
theorem slideClips_all_valid (perDur : ℚ) (n : ℕ) (l : List VC.ImageAsset) :
    ∀ i : ℕ, (∀ a ∈ l, a.fileExists = true) →
      VC.slideClips perDur n i l = (List.range l.length).map (fun j =>
        { dur := perDur
          fadeinDur := if 0 < i + j then 1/2 else 0
          fadeoutDur := if i + j < n - 1 then 1/2 else 0 }) := by
  induction l with
  | nil => intro i _; simp [VC.slideClips]
  | cons img rest ih =>
    intro i hval
    have himg : img.fileExists = true := hval img (List.mem_cons_self img rest)
    have hrest : ∀ a ∈ rest, a.fileExists = true :=
      fun a ha => hval a (List.mem_cons_of_mem img ha)
    rw [VC.slideClips, if_pos himg, ih (i + 1) hrest]
    rw [List.length_cons, List.range_succ_eq_map, List.map_cons, List.map_map]
    simp only [Nat.add_zero, Function.comp]
    congr 1
    apply List.map_congr_left
    intro j _
    have h1 : i + 1 + j = i + (j + 1) := by omega
    rw [h1]
    rfl

/-- On an all-valid image list the slideshow succeeds and the built track is
trimmed/extended to exactly the target duration. -/
theorem create_image_slideshow_all_valid (images : List VC.ImageAsset) (D : ℚ)
    (hne : images ≠ []) (hval : ∀ a ∈ images, a.fileExists = true) :
    VC.create_image_slideshow images D =
      .ok ((List.range images.length).map (fun j =>
        { dur := D / (images.length : ℚ)
          fadeinDur := if 0 < j then 1/2 else 0
          fadeoutDur := if j < images.length - 1 then 1/2 else 0 }), D) := by
  have hclips := slideClips_all_valid (D / (images.length : ℚ)) images.length images 0 hval
  simp only [Nat.zero_add] at hclips
  have hn : (images.length : ℚ) ≠ 0 := by
    exact_mod_cast (List.length_pos.mpr hne).ne'
  rw [VC.create_image_slideshow]
  simp only [hclips]
  have hlen : ((List.range images.length).map (fun j =>
      ({ dur := D / (images.length : ℚ)
         fadeinDur := if 0 < j then 1/2 else 0
         fadeoutDur := if j < images.length - 1 then 1/2 else 0 } : VC.SlideSeg))).length =
      images.length := by simp
  have hnonempty : ¬ ((List.range images.length).map (fun j =>
      ({ dur := D / (images.length : ℚ)
         fadeinDur := if 0 < j then 1/2 else 0
         fadeoutDur := if j < images.length - 1 then 1/2 else 0 } : VC.SlideSeg))).isEmpty = true := by
    rw [List.isEmpty_iff_length_eq_zero, hlen]
    exact Nat.pos_iff_ne_zero.mp (List.length_pos.mpr hne)
  rw [if_neg hnonempty]
  have htot : (((List.range images.length).map (fun j =>
      ({ dur := D / (images.length : ℚ)
         fadeinDur := if 0 < j then 1/2 else 0
         fadeoutDur := if j < images.length - 1 then 1/2 else 0 } : VC.SlideSeg))).map
        VC.SlideSeg.dur).sum = D := by
    rw [List.map_map]
    have : (VC.SlideSeg.dur ∘ fun j : ℕ =>
        ({ dur := D / (images.length : ℚ)
           fadeinDur := if 0 < j then 1/2 else 0
           fadeoutDur := if j < images.length - 1 then 1/2 else 0 } : VC.SlideSeg)) =
        fun _ : ℕ => D / (images.length : ℚ) := rfl
    rw [this, List.map_const', List.sum_replicate, List.length_range, nsmul_eq_mul,
      mul_div_cancel₀ D hn]
  simp only [htot, lt_irrefl, if_false]

/-! ## C4 -/

/-- C4: on a non-empty list of `n` valid images with target duration
`D > 0`, the image-slideshow builder gives every image a span of `D / n`,
fades in (0.5s) every image except the first, fades out (0.5s) every image
except the last, and the track duration is forced to exactly `D`. -/
theorem claim_C4_image_slideshow (images : List VC.ImageAsset) (D : ℚ)
    (hne : images ≠ []) (hval : ∀ a ∈ images, a.fileExists = true) (hD : 0 < D) :
    ∃ segs : List VC.SlideSeg,
      VC.create_image_slideshow images D = .ok (segs, D) ∧
      segs.length = images.length ∧
      ∀ j (hj : j < segs.length),
        (segs.get ⟨j, hj⟩).dur = D / (images.length : ℚ) ∧
        (segs.get ⟨j, hj⟩).fadeinDur = (if 0 < j then (1/2 : ℚ) else 0) ∧
        (segs.get ⟨j, hj⟩).fadeoutDur =
          (if j < images.length - 1 then (1/2 : ℚ) else 0) := by
  refine ⟨_, create_image_slideshow_all_valid images D hne hval, by simp, ?_⟩
  intro j hj
  simp only [List.length_map, List.length_range] at hj
  simp [List.get_eq_getElem, List.getElem_map, List.getElem_range, hj]

/-- Witness for C4 at the claim's scenario: 3 valid images and a 30-second
target give three 10-second segments, the first with fade-out only, the last
with fade-in only, the middle with both. -/
theorem claim_C4_witness :
    (([⟨true⟩, ⟨true⟩, ⟨true⟩] : List VC.ImageAsset) ≠ []) ∧
    (∀ a ∈ ([⟨true⟩, ⟨true⟩, ⟨true⟩] : List VC.ImageAsset), a.fileExists = true) ∧
    (0 < (30 : ℚ)) ∧
    (∃ segs : List VC.SlideSeg,
      VC.create_image_slideshow [⟨true⟩, ⟨true⟩, ⟨true⟩] 30 = .ok (segs, 30) ∧
      segs.length = 3 ∧
      ∀ j (hj : j < segs.length),
        (segs.get ⟨j, hj⟩).dur = 10 ∧
        (segs.get ⟨j, hj⟩).fadeinDur = (if 0 < j then (1/2 : ℚ) else 0) ∧
        (segs.get ⟨j, hj⟩).fadeoutDur = (if j < 2 then (1/2 : ℚ) else 0)) := by
  refine ⟨by decide, by decide, by norm_num, ?_⟩
  obtain ⟨segs, hok, hlen, hget⟩ :=
    claim_C4_image_slideshow [⟨true⟩, ⟨true⟩, ⟨true⟩] 30 (by decide) (by decide) (by norm_num)
  refine ⟨segs, hok, hlen, ?_⟩
  intro j hj
  obtain ⟨h1, h2, h3⟩ := hget j hj
  refine ⟨by rw [h1]; norm_num, h2, by rw [h3]; norm_num⟩

/-! ## Lemmas about the `create_video` pipeline -/

/-- Behaviour of `_create_video_background` on a list whose first valid entry is a
playable clip of positive duration. -/
theorem create_video_background_valid (videos : List VC.VideoAsset) (dur : ℚ)
    (hne : videos ≠ []) (v : VC.VideoAsset) (hsel : VC.selectVideo videos = some v)
    (hv : 0 < v.duration) (hdur : 0 < dur) :
    VC.create_video_background videos dur =
      .ok (VC.adjust_video_duration v.duration dur hv) := by
  rw [VC.create_video_background]
  rw [if_neg (by simp [List.isEmpty_iff, hne]), if_neg (not_le.mpr hdur), hsel]
  dsimp only
  rw [dif_neg (not_le.mpr hv)]

/-- Behaviour of `_create_video_background` on a non-empty list with no valid entry:
the wrapped `RuntimeError` of line 97. -/
theorem create_video_background_invalid (videos : List VC.VideoAsset) (dur : ℚ)
    (hne : videos ≠ []) (hsel : VC.selectVideo videos = none) (hdur : 0 < dur) :
    VC.create_video_background videos dur =
      .error (.runtimeError
        ("Failed to create video background: No valid video files found")) := by
  rw [VC.create_video_background]
  rw [if_neg (by simp [List.isEmpty_iff, hne]), if_neg (not_le.mpr hdur), hsel]

/-- The effective duration of line 43 is positive whenever both the audio
duration and the configured target are. -/
theorem actual_duration_pos (flag : Bool) (t C : ℚ) (ht : 0 < t) (hC : 0 < C) :
    0 < VC.actual_duration flag t C := by
  rw [VC.actual_duration]
  by_cases h : flag = true
  · rw [if_pos h]; exact ht
  · rw [if_neg h]; exact lt_min ht hC

/-- A full run of `create_video` on inputs whose visual source is valid:
the visual track's duration is exactly the effective duration, and the
outcome (including the handle state) is determined by whether the render
succeeds. -/
theorem create_video_run (inp : VC.CreateInput) (hA : inp.audioExists = true)
    (ht : 0 < inp.audioDuration) (hC : 0 < inp.targetDuration)
    (hv : VC.validVisualSource inp) :
    ∃ vis : VC.Visual,
      vis.duration =
        VC.actual_duration inp.isCustomScript inp.audioDuration inp.targetDuration ∧
      VC.create_video inp =
        (if inp.renderOk then
          ⟨.ok vis.duration, ⟨true, true, true, true, true, true⟩⟩
        else
          ⟨.error (VC.handle_video_error
              (.runtimeError ("Failed to render video: render error"))),
           ⟨true, false, true, false, true, false⟩⟩) := by
  have hdur := actual_duration_pos inp.isCustomScript inp.audioDuration inp.targetDuration ht hC
  rcases hv with ⟨hne, v, hsel, hpos⟩ | ⟨hveq, hine, hval⟩
  · refine ⟨.videoBg (VC.adjust_video_duration v.duration
      (VC.actual_duration inp.isCustomScript inp.audioDuration inp.targetDuration) hpos),
      adjust_video_duration_sum _ _ hpos hdur, ?_⟩
    rw [VC.create_video]
    rw [if_neg (by simp [List.isEmpty_iff, hne])]
    rw [if_neg (by simp [hA])]
    have hcond : (!inp.videos.isEmpty) = true := by simp [List.isEmpty_iff, hne]
    dsimp only
    rw [if_pos hcond, create_video_background_valid _ _ hne v hsel hpos hdur]
    dsimp only [Except.map]
    by_cases hR : inp.renderOk = true
    · simp only [hR, if_true]
    · have hR' : inp.renderOk = false := by simpa using hR
      simp only [hR']
      rfl
  · refine ⟨.slideshow ((List.range inp.images.length).map (fun j =>
        { dur := VC.actual_duration inp.isCustomScript inp.audioDuration inp.targetDuration /
            (inp.images.length : ℚ)
          fadeinDur := if 0 < j then 1/2 else 0
          fadeoutDur := if j < inp.images.length - 1 then 1/2 else 0 }))
        (VC.actual_duration inp.isCustomScript inp.audioDuration inp.targetDuration),
      rfl, ?_⟩
    rw [VC.create_video]
    rw [if_neg (by simp [List.isEmpty_iff, hveq, hine])]
    rw [if_neg (by simp [hA])]
    have hcond : (!inp.videos.isEmpty) = false := by simp [hveq]
    dsimp only
    rw [if_neg (by simp [hcond] : ¬ (!inp.videos.isEmpty) = true),
      create_image_slideshow_all_valid inp.images _ hine hval]
    dsimp only [Except.map]
    by_cases hR : inp.renderOk = true
    · simp only [hR, if_true]
    · have hR' : inp.renderOk = false := by simpa using hR
      simp only [hR']
      rfl

/-! ## C2 -/

/-- C2: on a successful run, the effective rendered duration is the full
narration duration `t` when the custom-script flag is set, and
`min(t, cap)` otherwise (video_creator.py:43). -/
theorem claim_C2_duration_reconciliation (inp : VC.CreateInput)
    (hA : inp.audioExists = true) (hR : inp.renderOk = true)
    (ht : 0 < inp.audioDuration) (hC : 0 < inp.targetDuration)
    (hv : VC.validVisualSource inp) :
    (VC.create_video inp).result =
      .ok (if inp.isCustomScript then inp.audioDuration
           else min inp.audioDuration inp.targetDuration) := by
  obtain ⟨vis, hdur, hrun⟩ := create_video_run inp hA ht hC hv
  rw [hrun]
  simp only [hR, if_true]
  rw [hdur]
  rfl

/-- Witness for C2 at the claim's scenario: narration of 40s against a 30s
cap renders 40s with the custom-script flag and 30s without it. -/
theorem claim_C2_witness :
    0 < (40 : ℚ) ∧ 0 < (30 : ℚ) ∧
    (VC.create_video ⟨[⟨true, true, 12⟩], [], true, 40, true, 30, true⟩).result = .ok 40 ∧
    (VC.create_video ⟨[⟨true, true, 12⟩], [], true, 40, false, 30, true⟩).result = .ok 30 := by
  refine ⟨by norm_num, by norm_num, ?_, ?_⟩
  · have h := claim_C2_duration_reconciliation
      ⟨[⟨true, true, 12⟩], [], true, 40, true, 30, true⟩ rfl rfl (by norm_num) (by norm_num)
      (Or.inl ⟨by simp, ⟨true, true, 12⟩, rfl, by norm_num⟩)
    rw [h]
    norm_num
  · have h := claim_C2_duration_reconciliation
      ⟨[⟨true, true, 12⟩], [], true, 40, false, 30, true⟩ rfl rfl (by norm_num) (by norm_num)
      (Or.inl ⟨by simp, ⟨true, true, 12⟩, rfl, by norm_num⟩)
    rw [h]
    norm_num

/-! ## C3 -/

/-- Behaviour of `create_video` on a non-empty `videos` list with no valid entry: the
exception from `_create_video_background` propagates through
`_handle_video_error` and the run fails; no fallback to the image strategy
happens and no handle is closed. -/
theorem create_video_invalid_videos (inp : VC.CreateInput) (hA : inp.audioExists = true)
    (hne : inp.videos ≠ []) (hsel : VC.selectVideo inp.videos = none)
    (ht : 0 < inp.audioDuration) (hC : 0 < inp.targetDuration) :
    VC.create_video inp =
      ⟨.error (.runtimeError
          ("Video creation failed: Failed to create video background: No valid video files found")),
       ⟨true, false, false, false, false, false⟩⟩ := by
  have hdur := actual_duration_pos inp.isCustomScript inp.audioDuration inp.targetDuration ht hC
  rw [VC.create_video]
  rw [if_neg (by simp [List.isEmpty_iff, hne])]
  rw [if_neg (by simp [hA])]
  have hcond : (!inp.videos.isEmpty) = true := by simp [List.isEmpty_iff, hne]
  dsimp only
  rw [if_pos hcond, create_video_background_invalid _ _ hne hsel hdur]
  dsimp only [Except.map]
  have h : VC.handle_video_error
      (.runtimeError ("Failed to create video background: No valid video files found")) =
      .runtimeError
        ("Video creation failed: Failed to create video background: No valid video files found") := by
    decide
  rw [h]
  rfl

/-- Counterexample to C3 as stated: one video asset whose local file does
not exist, together with one perfectly valid image asset — the run fails
with a `RuntimeError` instead of falling back to the image slideshow. -/
theorem claim_C3_counterexample :
    (VC.create_video ⟨[⟨true, false, 10⟩], [⟨true⟩], true, 40, false, 30, true⟩).result =
      .error (.runtimeError
        ("Video creation failed: Failed to create video background: No valid video files found")) := by
  rw [create_video_invalid_videos ⟨[⟨true, false, 10⟩], [⟨true⟩], true, 40, false, 30, true⟩
    rfl (by simp) rfl (by norm_num) (by norm_num)]

/-- C3 (amended): the image-slideshow fallback is selected only when the
`videos` list itself is empty; a non-empty `videos` list in which no asset
has an existing local file makes the whole run fail with a `RuntimeError`,
valid images notwithstanding. -/
theorem claim_C3_amended (inp : VC.CreateInput) (hA : inp.audioExists = true)
    (ht : 0 < inp.audioDuration) (hC : 0 < inp.targetDuration) :
    (inp.videos ≠ [] → VC.selectVideo inp.videos = none →
      (VC.create_video inp).result =
        .error (.runtimeError
          ("Video creation failed: Failed to create video background: No valid video files found"))) ∧
    (inp.videos = [] → inp.images ≠ [] → (∀ a ∈ inp.images, a.fileExists = true) →
      inp.renderOk = true →
      (VC.create_video inp).result =
        .ok (VC.actual_duration inp.isCustomScript inp.audioDuration inp.targetDuration)) := by
  constructor
  · intro hne hsel
    rw [create_video_invalid_videos inp hA hne hsel ht hC]
  · intro hveq hine hval hR
    obtain ⟨vis, hdur, hrun⟩ := create_video_run inp hA ht hC (Or.inr ⟨hveq, hine, hval⟩)
    rw [hrun]
    simp only [hR, if_true]
    rw [hdur]

/-- Witness for the amended C3 at a concrete input: a non-empty invalid
`videos` list and a valid image make the run fail. -/
theorem claim_C3_witness :
    (([⟨true, false, 10⟩] : List VC.VideoAsset) ≠ []) ∧
    VC.selectVideo [⟨true, false, 10⟩] = none ∧
    0 < (40 : ℚ) ∧ 0 < (30 : ℚ) ∧
    (VC.create_video ⟨[⟨true, false, 10⟩], [⟨true⟩], true, 40, false, 30, true⟩).result =
      .error (.runtimeError
        ("Video creation failed: Failed to create video background: No valid video files found")) := by
  refine ⟨by simp, rfl, by norm_num, by norm_num, ?_⟩
  exact (claim_C3_amended ⟨[⟨true, false, 10⟩], [⟨true⟩], true, 40, false, 30, true⟩
    rfl (by norm_num) (by norm_num)).1 (by simp) rfl

/-! ## C9 -/

/-- Counterexample to C9 as stated: a perfectly valid input whose render
step fails — the `except` branch re-raises without closing anything, so the
opened audio handle is leaked. -/
theorem claim_C9_counterexample :
    (VC.create_video ⟨[⟨true, true, 12⟩], [], true, 40, false, 30, false⟩).result.isOk = false ∧
    (VC.create_video ⟨[⟨true, true, 12⟩], [], true, 40, false, 30, false⟩).state.audioOpened = true ∧
    (VC.create_video ⟨[⟨true, true, 12⟩], [], true, 40, false, 30, false⟩).state.audioClosed = false := by
  obtain ⟨vis, hdur, hrun⟩ := create_video_run
    ⟨[⟨true, true, 12⟩], [], true, 40, false, 30, false⟩ rfl (by norm_num) (by norm_num)
    (Or.inl ⟨by simp, ⟨true, true, 12⟩, rfl, by norm_num⟩)
  rw [hrun]
  refine ⟨rfl, rfl, rfl⟩

/-- C9 (amended): the three intermediate media handles are all closed when
`create_video` returns successfully, but on every error path the `except`
branch re-raises without closing, so no handle at all is released there —
resource release is conditional on success. -/
theorem claim_C9_amended (inp : VC.CreateInput) :
    ((VC.create_video inp).result.isOk = true →
      (VC.create_video inp).state = ⟨true, true, true, true, true, true⟩) ∧
    ((VC.create_video inp).result.isOk = false →
      (VC.create_video inp).state.audioClosed = false ∧
      (VC.create_video inp).state.visualClosed = false ∧
      (VC.create_video inp).state.finalClosed = false) := by
  rw [VC.create_video]
  dsimp only
  repeat' split
  all_goals constructor <;> intro h <;> simp_all [Except.isOk, Except.toBool, VC.RunState.init]

/-- Witness for the amended C9: a successful run closes all three handles,
and a run whose render fails closes none. -/
theorem claim_C9_witness :
    ((VC.create_video ⟨[⟨true, true, 12⟩], [], true, 40, false, 30, true⟩).state =
      ⟨true, true, true, true, true, true⟩) ∧
    ((VC.create_video ⟨[⟨true, true, 12⟩], [], true, 40, false, 30, false⟩).state.audioClosed = false ∧
     (VC.create_video ⟨[⟨true, true, 12⟩], [], true, 40, false, 30, false⟩).state.visualClosed = false ∧
     (VC.create_video ⟨[⟨true, true, 12⟩], [], true, 40, false, 30, false⟩).state.finalClosed = false) := by
  constructor
  · apply (claim_C9_amended ⟨[⟨true, true, 12⟩], [], true, 40, false, 30, true⟩).1
    obtain ⟨vis, hdur, hrun⟩ := create_video_run
      ⟨[⟨true, true, 12⟩], [], true, 40, false, 30, true⟩ rfl (by norm_num) (by norm_num)
      (Or.inl ⟨by simp, ⟨true, true, 12⟩, rfl, by norm_num⟩)
    rw [hrun]
    rfl
  · apply (claim_C9_amended ⟨[⟨true, true, 12⟩], [], true, 40, false, 30, false⟩).2
    obtain ⟨vis, hdur, hrun⟩ := create_video_run
      ⟨[⟨true, true, 12⟩], [], true, 40, false, 30, false⟩ rfl (by norm_num) (by norm_num)
      (Or.inl ⟨by simp, ⟨true, true, 12⟩, rfl, by norm_num⟩)
    rw [hrun]
    rfl

/-! ## Lemmas about the subtitle timing loop -/

/-- Invariant of the `_calculate_subtitle_timing` loop, for any starting
time strictly below the total duration: the cue texts are an initial
segment of the remaining sentences, cues are laid back-to-back starting at
the current time, every end time is clamped to `T`, every span is at least
`min 1 (T - start)`, and every span except possibly the last is at least
one second. -/
theorem timingAux_spec (tc : ℕ) (T : ℚ) :
    ∀ (sentences : List (List Char)) (cur : ℚ), cur < T →
      (SG.timingAux tc T cur sentences).map SG.Cue.text =
          sentences.take (SG.timingAux tc T cur sentences).length ∧
      List.Chain' (fun a b => a.stop = b.start) (SG.timingAux tc T cur sentences) ∧
      (∀ b, (SG.timingAux tc T cur sentences).head? = some b → b.start = cur) ∧
      (∀ c ∈ SG.timingAux tc T cur sentences,
        c.stop ≤ T ∧ min 1 (T - c.start) ≤ c.stop - c.start) ∧
      (∀ c ∈ (SG.timingAux tc T cur sentences).dropLast, 1 ≤ c.stop - c.start) := by
  intro sentences
  induction sentences with
  | nil =>
    intro cur hcur
    refine ⟨rfl, List.chain'_nil, ?_, ?_, ?_⟩
    · intro b hb
      cases hb
    all_goals intro c hc; cases hc
  | cons s rest ih =>
    intro cur hcur
    have hdur1 : (1 : ℚ) ≤ max (((s.length : ℚ) / (tc : ℚ)) * T) 1 := le_max_right _ _
    rw [SG.timingAux]
    set dur := max (((s.length : ℚ) / (tc : ℚ)) * T) 1 with hdurdef
    set stop := min (cur + dur) T with hstopdef
    have hstopT : stop ≤ T := min_le_right _ _
    by_cases hstop : T ≤ stop
    · rw [if_pos hstop]
      refine ⟨by simp, List.chain'_singleton _, ?_, ?_, ?_⟩
      · intro b hb
        cases hb
        rfl
      · intro c hc
        rcases List.mem_singleton.mp hc with rfl
        have hTeq : stop = T := le_antisymm hstopT hstop
        refine ⟨hstopT, ?_⟩
        show min 1 (T - cur) ≤ stop - cur
        rw [hTeq]
        exact min_le_right _ _
      · intro c hc
        cases hc
    · rw [if_neg hstop]
      have hstopLt : stop < T := lt_of_le_of_ne hstopT (fun h => hstop (le_of_eq h.symm))
      obtain ⟨ih1, ih2, ih3, ih4, ih5⟩ := ih stop hstopLt
      have hspan : stop - cur = min dur (T - cur) := by
        rw [hstopdef]
        rw [min_comm (cur + dur) T, add_comm cur dur]
        rw [min_comm dur (T - cur)]
        rw [eq_comm]
        exact (min_sub_sub_right T (dur + cur) cur).symm ▸ by ring_nf
      refine ⟨?_, ?_, ?_, ?_, ?_⟩
      · simp only [List.map_cons, List.length_cons, List.take_succ_cons, ih1]
      · refine List.chain'_cons'.mpr ⟨?_, ih2⟩
        intro b hb
        exact (ih3 b hb).symm
      · intro b hb
        cases hb
        rfl
      · intro c hc
        rcases List.mem_cons.mp hc with rfl | hc
        · refine ⟨hstopT, ?_⟩
          show min 1 (T - cur) ≤ stop - cur
          rw [hspan]
          exact min_le_min hdur1 (le_refl _)
        · exact ih4 c hc
      · intro c hc
        by_cases hLnil : SG.timingAux tc T stop rest = []
        · rw [hLnil] at hc
          cases hc
        · rw [List.dropLast_cons_of_ne_nil hLnil] at hc
          rcases List.mem_cons.mp hc with rfl | hc2
          · show (1 : ℚ) ≤ stop - cur
            have hmin : cur + dur ≤ T := by
              by_contra hgt
              have hTe : stop = T := by
                rw [hstopdef, min_eq_right (le_of_lt (not_le.mp hgt))]
              exact absurd (le_of_eq hTe.symm) hstop
            have hse : stop = cur + dur := by rw [hstopdef, min_eq_left hmin]
            rw [hse]
            calc (1 : ℚ) ≤ dur := hdur1
            _ = cur + dur - cur := by ring
          · exact ih5 c hc2

/-! ## C5 -/

/-- Counterexample to C5 as stated: for the text `"abc。def。ghi。"` and a
total duration of 2 seconds, the 1-second minimum span fills the whole
duration after two cues and the loop `break`s, so the third sentence is
dropped — concatenating the cue texts does not reproduce the split
sentences. -/
theorem claim_C5_counterexample :
    0 < (2 : ℚ) ∧
    (SG.calculate_subtitle_timing
        (SG.split_text_into_sentences
          ['a', 'b', 'c', '。', 'd', 'e', 'f', '。', 'g', 'h', 'i', '。']) 2).map SG.Cue.text ≠
      SG.split_text_into_sentences
        ['a', 'b', 'c', '。', 'd', 'e', 'f', '。', 'g', 'h', 'i', '。'] := by
  refine ⟨by norm_num, ?_⟩
  have hs : SG.split_text_into_sentences
      ['a', 'b', 'c', '。', 'd', 'e', 'f', '。', 'g', 'h', 'i', '。'] =
      [['a', 'b', 'c', '。'], ['d', 'e', 'f', '。'], ['g', 'h', 'i', '。']] := by decide
  rw [hs]
  norm_num [SG.calculate_subtitle_timing, SG.timingAux]

/-- C5 (amended): the cue texts form an initial segment of the split
sentences (sentences are dropped once the cumulative time reaches the total
duration), cues are laid out back-to-back starting at time 0, every cue's
end time is clamped to the total duration, every cue's span is at least one
second except possibly the last, whose span is still at least
`min 1 (T - start)`. -/
theorem claim_C5_subtitle_timing (text : List Char) (T : ℚ) (hT : 0 < T) :
    (SG.calculate_subtitle_timing (SG.split_text_into_sentences text) T).map SG.Cue.text =
      (SG.split_text_into_sentences text).take
        (SG.calculate_subtitle_timing (SG.split_text_into_sentences text) T).length ∧
    List.Chain' (fun a b => a.stop = b.start)
      (SG.calculate_subtitle_timing (SG.split_text_into_sentences text) T) ∧
    (∀ b, (SG.calculate_subtitle_timing (SG.split_text_into_sentences text) T).head? = some b →
      b.start = 0) ∧
    (∀ c ∈ SG.calculate_subtitle_timing (SG.split_text_into_sentences text) T,
      c.stop ≤ T ∧ min 1 (T - c.start) ≤ c.stop - c.start) ∧
    (∀ c ∈ (SG.calculate_subtitle_timing (SG.split_text_into_sentences text) T).dropLast,
      1 ≤ c.stop - c.start) := by
  rw [SG.calculate_subtitle_timing]
  by_cases he : (SG.split_text_into_sentences text).isEmpty
  · rw [if_pos he]
    refine ⟨rfl, List.chain'_nil, ?_, ?_, ?_⟩
    · intro b hb
      cases hb
    all_goals intro c hc; cases hc
  · rw [if_neg he]
    exact timingAux_spec ((SG.split_text_into_sentences text).map List.length).sum T
      (SG.split_text_into_sentences text) 0 hT

/-- Witness for the amended C5 at the counterexample's input. -/
theorem claim_C5_witness :
    0 < (2 : ℚ) ∧
    ((SG.calculate_subtitle_timing
        (SG.split_text_into_sentences
          ['a', 'b', 'c', '。', 'd', 'e', 'f', '。', 'g', 'h', 'i', '。']) 2).map SG.Cue.text =
      (SG.split_text_into_sentences
        ['a', 'b', 'c', '。', 'd', 'e', 'f', '。', 'g', 'h', 'i', '。']).take
        (SG.calculate_subtitle_timing
          (SG.split_text_into_sentences
            ['a', 'b', 'c', '。', 'd', 'e', 'f', '。', 'g', 'h', 'i', '。']) 2).length) ∧
    (∀ c ∈ SG.calculate_subtitle_timing
        (SG.split_text_into_sentences
          ['a', 'b', 'c', '。', 'd', 'e', 'f', '。', 'g', 'h', 'i', '。']) 2,
      c.stop ≤ 2 ∧ min 1 (2 - c.start) ≤ c.stop - c.start) := by
  obtain ⟨h1, _, _, h4, _⟩ := claim_C5_subtitle_timing
    ['a', 'b', 'c', '。', 'd', 'e', 'f', '。', 'g', 'h', 'i', '。'] 2 (by norm_num)
  exact ⟨by norm_num, h1, h4⟩

/-! ## Lemmas about the narration text splitter -/

/-- Stripping only shortens a string. -/
theorem pyStrip_length_le (s : List Char) : (pyStrip s).length ≤ s.length := by
  rw [pyStrip]
  calc ((s.dropWhile pyIsSpace).reverse.dropWhile pyIsSpace).reverse.length
      = ((s.dropWhile pyIsSpace).reverse.dropWhile pyIsSpace).length := by
        rw [List.length_reverse]
    _ ≤ (s.dropWhile pyIsSpace).reverse.length :=
        (List.dropWhile_sublist _).length_le
    _ = (s.dropWhile pyIsSpace).length := by rw [List.length_reverse]
    _ ≤ s.length := (List.dropWhile_sublist _).length_le

/-- On a string free of Python whitespace, stripping is the identity. -/
theorem pyStrip_of_noWs (s : List Char) (h : VG.noWs s) : pyStrip s = s := by
  have hdw : ∀ t : List Char, VG.noWs t → t.dropWhile pyIsSpace = t := by
    intro t ht
    cases t with
    | nil => rfl
    | cons c cs =>
      rw [List.dropWhile_cons, ht c (List.mem_cons_self c cs)]
      simp
  rw [pyStrip, hdw s h, hdw, List.reverse_reverse]
  intro c hc
  exact h c (List.mem_reverse.mp hc)

/-- Concatenating the delimiter-keeping split gives back the input,
prefixed by the reversed accumulator. -/
theorem splitKeep_flatten (delim : Char → Bool) :
    ∀ (s acc : List Char), (VG.splitKeep delim s acc).flatten = acc.reverse ++ s := by
  intro s
  induction s with
  | nil => intro acc; simp [VG.splitKeep]
  | cons c cs ih =>
    intro acc
    rw [VG.splitKeep]
    by_cases h : delim c
    · rw [if_pos h]
      simp only [List.flatten_cons, ih []]
      simp
    · rw [if_neg h]
      rw [ih (c :: acc)]
      simp

/-- A member of a list of lists is no longer than the flattening. -/
theorem length_le_flatten {p : List Char} :
    ∀ {l : List (List Char)}, p ∈ l → p.length ≤ l.flatten.length := by
  intro l
  induction l with
  | nil => intro h; cases h
  | cons x xs ih =>
    intro h
    rw [List.flatten_cons, List.length_append]
    rcases List.mem_cons.mp h with rfl | h
    · exact Nat.le_add_right _ _
    · exact le_add_of_nonneg_of_le (Nat.zero_le _) (ih h)

/-- Every segment the splitter produces from `s` (with an empty
accumulator) is no longer than `s`. -/
theorem splitKeep_part_length (delim : Char → Bool) (s p : List Char)
    (hp : p ∈ VG.splitKeep delim s []) : p.length ≤ s.length := by
  have h := length_le_flatten hp
  rw [splitKeep_flatten] at h
  simpa using h

/-- Invariant of the chunking state: all emitted chunks and the current
buffer respect the budget. -/
theorem addPart_bounded (M : ℕ) (st : List (List Char) × List Char) (p : List Char)
    (hp : p.length ≤ M) (h1 : ∀ c ∈ st.1, c.length ≤ M) (h2 : st.2.length ≤ M) :
    (∀ c ∈ (VG.addPart M st p).1, c.length ≤ M) ∧ (VG.addPart M st p).2.length ≤ M := by
  rw [VG.addPart]
  by_cases hfit : st.2.length + p.length ≤ M
  · rw [if_pos hfit]
    exact ⟨h1, by simpa using hfit⟩
  · rw [if_neg hfit]
    by_cases hnil : st.2 = []
    · rw [if_pos hnil]
      exact ⟨h1, hp⟩
    · rw [if_neg hnil]
      refine ⟨?_, hp⟩
      intro c hc
      rcases List.mem_append.mp hc with hc | hc
      · exact h1 c hc
      · rcases List.mem_singleton.mp hc with rfl
        exact le_trans (pyStrip_length_le _) h2

/-- The comma loop preserves the budget invariant when every part fits. -/
theorem foldl_addPart_bounded (M : ℕ) :
    ∀ (parts : List (List Char)) (st : List (List Char) × List Char),
      (∀ p ∈ parts, p.length ≤ M) → (∀ c ∈ st.1, c.length ≤ M) → st.2.length ≤ M →
      (∀ c ∈ (parts.foldl (VG.addPart M) st).1, c.length ≤ M) ∧
        (parts.foldl (VG.addPart M) st).2.length ≤ M := by
  intro parts
  induction parts with
  | nil => intro st _ h1 h2; exact ⟨h1, h2⟩
  | cons p rest ih =>
    intro st hp h1 h2
    rw [List.foldl_cons]
    obtain ⟨g1, g2⟩ := addPart_bounded M st p (hp p (List.mem_cons_self p rest)) h1 h2
    exact ih _ (fun q hq => hp q (List.mem_cons_of_mem p hq)) g1 g2

/-- The sentence loop preserves the budget invariant when every sentence
fits. -/
theorem addSentence_bounded (M : ℕ) (st : List (List Char) × List Char) (s : List Char)
    (hs : s.length ≤ M) (h1 : ∀ c ∈ st.1, c.length ≤ M) (h2 : st.2.length ≤ M) :
    (∀ c ∈ (VG.addSentence M st s).1, c.length ≤ M) ∧
      (VG.addSentence M st s).2.length ≤ M := by
  rw [VG.addSentence]
  by_cases hfit : st.2.length + s.length ≤ M
  · rw [if_pos hfit]
    exact ⟨h1, by simpa using hfit⟩
  · rw [if_neg hfit]
    by_cases hnil : st.2 ≠ []
    · rw [if_pos hnil]
      refine ⟨?_, hs⟩
      intro c hc
      rcases List.mem_append.mp hc with hc | hc
      · exact h1 c hc
      · rcases List.mem_singleton.mp hc with rfl
        exact le_trans (pyStrip_length_le _) h2
    · rw [if_neg hnil]
      exact foldl_addPart_bounded M _ st
        (fun p hp => le_trans (splitKeep_part_length VG.cDelim s p hp) hs) h1 h2

/-- The whole sentence fold preserves the budget invariant. -/
theorem foldl_addSentence_bounded (M : ℕ) :
    ∀ (sents : List (List Char)) (st : List (List Char) × List Char),
      (∀ s ∈ sents, s.length ≤ M) → (∀ c ∈ st.1, c.length ≤ M) → st.2.length ≤ M →
      (∀ c ∈ (sents.foldl (VG.addSentence M) st).1, c.length ≤ M) ∧
        (sents.foldl (VG.addSentence M) st).2.length ≤ M := by
  intro sents
  induction sents with
  | nil => intro st _ h1 h2; exact ⟨h1, h2⟩
  | cons s rest ih =>
    intro st hs h1 h2
    rw [List.foldl_cons]
    obtain ⟨g1, g2⟩ := addSentence_bounded M st s (hs s (List.mem_cons_self s rest)) h1 h2
    exact ih _ (fun q hq => hs q (List.mem_cons_of_mem s hq)) g1 g2

/-! ## C6 -/

/-- Counterexample to C6 as stated: with budget `M = 5` and the text
`"ab。cdefgh。ij。"` the 7-character sentence `"cdefgh。"` arrives while the
chunk buffer holds `"ab。"`, so the code flushes the buffer and adopts the
whole long sentence as the next chunk without ever reaching the comma
fallback — the emitted chunk `"cdefgh。"` exceeds the budget. -/
theorem claim_C6_counterexample :
    ¬ (∀ c ∈ VG.split_text_for_voice
        ['a', 'b', '。', 'c', 'd', 'e', 'f', 'g', 'h', '。', 'i', 'j', '。'] 5,
      c.length ≤ 5) := by
  decide

/-- C6 (amended): every chunk respects the budget `M` provided every
sentence of the text (as cut by `re.split(r'([。！？])', text)` with its
delimiter re-attached) is itself at most `M` characters; a single sentence
longer than `M` can, and does, surface as an over-budget chunk, because the
comma fallback only runs when the chunk buffer is empty. -/
theorem claim_C6_chunk_budget (text : List Char) (M : ℕ)
    (hsent : ∀ s ∈ VG.splitKeep VG.vDelim text [], s.length ≤ M) :
    ∀ c ∈ VG.split_text_for_voice text M, c.length ≤ M := by
  rw [VG.split_text_for_voice]
  by_cases hlen : text.length ≤ M
  · rw [if_pos hlen]
    intro c hc
    rcases List.mem_singleton.mp hc with rfl
    exact hlen
  · rw [if_neg hlen]
    intro c hc
    have hst := foldl_addSentence_bounded M (VG.splitKeep VG.vDelim text [])
      ([], []) hsent (by intro x hx; cases hx) (Nat.zero_le _)
    set st := (VG.splitKeep VG.vDelim text []).foldl (VG.addSentence M) ([], []) with hstdef
    have hc2 := List.mem_filter.mp hc
    by_cases hnil : st.2 ≠ []
    · rw [if_pos hnil] at hc2
      rcases List.mem_append.mp hc2.1 with hm | hm
      · exact hst.1 c hm
      · rcases List.mem_singleton.mp hm with rfl
        exact le_trans (pyStrip_length_le _) hst.2
    · rw [if_neg hnil] at hc2
      exact hst.1 c hc2.1

/-- Witness for the amended C6: a 6-character text over budget 3 whose
sentences all fit the budget yields only chunks within the budget. -/
theorem claim_C6_witness :
    (∀ s ∈ VG.splitKeep VG.vDelim ['a', 'b', '。', 'c', 'd', '。'] [], s.length ≤ 3) ∧
    (∀ c ∈ VG.split_text_for_voice ['a', 'b', '。', 'c', 'd', '。'] 3, c.length ≤ 3) :=
  ⟨by decide, claim_C6_chunk_budget ['a', 'b', '。', 'c', 'd', '。'] 3 (by decide)⟩

/-! ## Lemmas about chunk concatenation (round trip) -/

/-- One comma-loop step neither loses nor duplicates characters, on
whitespace-free state. -/
theorem addPart_flatten (M : ℕ) (st : List (List Char) × List Char) (p : List Char)
    (hp : VG.noWs p) (h1 : ∀ c ∈ st.1, VG.noWs c) (h2 : VG.noWs st.2) :
    (VG.addPart M st p).1.flatten ++ (VG.addPart M st p).2 = st.1.flatten ++ st.2 ++ p ∧
    (∀ c ∈ (VG.addPart M st p).1, VG.noWs c) ∧ VG.noWs (VG.addPart M st p).2 := by
  rw [VG.addPart]
  by_cases hfit : st.2.length + p.length ≤ M
  · rw [if_pos hfit]
    refine ⟨by simp [List.append_assoc], h1, ?_⟩
    intro c hc
    rcases List.mem_append.mp hc with hc | hc
    · exact h2 c hc
    · exact hp c hc
  · rw [if_neg hfit]
    by_cases hnil : st.2 = []
    · rw [if_pos hnil, hnil]
      exact ⟨by simp, h1, hp⟩
    · rw [if_neg hnil, pyStrip_of_noWs st.2 h2]
      refine ⟨by simp, ?_, hp⟩
      intro c hc
      rcases List.mem_append.mp hc with hc | hc
      · exact h1 c hc
      · rcases List.mem_singleton.mp hc with rfl
        exact h2

/-- The comma loop neither loses nor duplicates characters. -/
theorem foldl_addPart_flatten (M : ℕ) :
    ∀ (parts : List (List Char)) (st : List (List Char) × List Char),
      (∀ p ∈ parts, VG.noWs p) → (∀ c ∈ st.1, VG.noWs c) → VG.noWs st.2 →
      (parts.foldl (VG.addPart M) st).1.flatten ++ (parts.foldl (VG.addPart M) st).2 =
          st.1.flatten ++ st.2 ++ parts.flatten ∧
      (∀ c ∈ (parts.foldl (VG.addPart M) st).1, VG.noWs c) ∧
      VG.noWs (parts.foldl (VG.addPart M) st).2 := by
  intro parts
  induction parts with
  | nil => intro st _ h1 h2; exact ⟨by simp, h1, h2⟩
  | cons p rest ih =>
    intro st hp h1 h2
    rw [List.foldl_cons]
    obtain ⟨g0, g1, g2⟩ := addPart_flatten M st p (hp p (List.mem_cons_self p rest)) h1 h2
    obtain ⟨f0, f1, f2⟩ := ih (VG.addPart M st p)
      (fun q hq => hp q (List.mem_cons_of_mem p hq)) g1 g2
    refine ⟨?_, f1, f2⟩
    rw [f0, g0, List.flatten_cons]
    simp [List.append_assoc]

/-- One sentence-loop step neither loses nor duplicates characters, on
whitespace-free state. -/
theorem addSentence_flatten (M : ℕ) (st : List (List Char) × List Char) (s : List Char)
    (hs : VG.noWs s) (h1 : ∀ c ∈ st.1, VG.noWs c) (h2 : VG.noWs st.2) :
    (VG.addSentence M st s).1.flatten ++ (VG.addSentence M st s).2 =
        st.1.flatten ++ st.2 ++ s ∧
    (∀ c ∈ (VG.addSentence M st s).1, VG.noWs c) ∧ VG.noWs (VG.addSentence M st s).2 := by
  rw [VG.addSentence]
  by_cases hfit : st.2.length + s.length ≤ M
  · rw [if_pos hfit]
    refine ⟨by simp [List.append_assoc], h1, ?_⟩
    intro c hc
    rcases List.mem_append.mp hc with hc | hc
    · exact h2 c hc
    · exact hs c hc
  · rw [if_neg hfit]
    by_cases hnil : st.2 ≠ []
    · rw [if_pos hnil, pyStrip_of_noWs st.2 h2]
      refine ⟨by simp, ?_, hs⟩
      intro c hc
      rcases List.mem_append.mp hc with hc | hc
      · exact h1 c hc
      · rcases List.mem_singleton.mp hc with rfl
        exact h2
    · rw [if_neg hnil]
      have hparts : ∀ p ∈ VG.splitKeep VG.cDelim s [], VG.noWs p := by
        intro p hp c hc
        apply hs
        have : c ∈ (VG.splitKeep VG.cDelim s []).flatten := List.mem_flatten.mpr ⟨p, hp, hc⟩
        rwa [splitKeep_flatten, List.reverse_nil, List.nil_append] at this
      obtain ⟨f0, f1, f2⟩ := foldl_addPart_flatten M (VG.splitKeep VG.cDelim s []) st hparts h1 h2
      refine ⟨?_, f1, f2⟩
      rw [f0, splitKeep_flatten, List.reverse_nil, List.nil_append]

/-- The sentence fold neither loses nor duplicates characters. -/
theorem foldl_addSentence_flatten (M : ℕ) :
    ∀ (sents : List (List Char)) (st : List (List Char) × List Char),
      (∀ s ∈ sents, VG.noWs s) → (∀ c ∈ st.1, VG.noWs c) → VG.noWs st.2 →
      (sents.foldl (VG.addSentence M) st).1.flatten ++
          (sents.foldl (VG.addSentence M) st).2 =
        st.1.flatten ++ st.2 ++ sents.flatten ∧
      (∀ c ∈ (sents.foldl (VG.addSentence M) st).1, VG.noWs c) ∧
      VG.noWs (sents.foldl (VG.addSentence M) st).2 := by
  intro sents
  induction sents with
  | nil => intro st _ h1 h2; exact ⟨by simp, h1, h2⟩
  | cons s rest ih =>
    intro st hs h1 h2
    rw [List.foldl_cons]
    obtain ⟨g0, g1, g2⟩ := addSentence_flatten M st s (hs s (List.mem_cons_self s rest)) h1 h2
    obtain ⟨f0, f1, f2⟩ := ih (VG.addSentence M st s)
      (fun q hq => hs q (List.mem_cons_of_mem s hq)) g1 g2
    refine ⟨?_, f1, f2⟩
    rw [f0, g0, List.flatten_cons]
    simp [List.append_assoc]

/-- Dropping empty lists does not change a flattening. -/
theorem flatten_filter_ne_nil :
    ∀ l : List (List Char), (l.filter (fun x => x ≠ [])).flatten = l.flatten := by
  intro l
  induction l with
  | nil => rfl
  | cons x xs ih =>
    simp only [decide_not] at ih
    by_cases hx : x = []
    · subst hx
      simp [List.filter_cons, ih]
    · simp [List.filter_cons, hx, ih]

/-! ## C7 -/

/-- Counterexample to C7 as stated: the 7-character text `"ab。 cd。"`
exceeds a budget of 5, and the space sitting at the chunk boundary is
removed by the `strip()` in the chunk flush, so concatenating the chunks
(`"ab。"`, `"cd。"`) does not give back the input. -/
theorem claim_C7_counterexample :
    ¬ (['a', 'b', '。', ' ', 'c', 'd', '。'] : List Char).length ≤ 5 ∧
    (VG.split_text_for_voice ['a', 'b', '。', ' ', 'c', 'd', '。'] 5).flatten ≠
      ['a', 'b', '。', ' ', 'c', 'd', '。'] := by
  constructor <;> decide

/-- C7 (amended): for a whitespace-free input text, concatenating the
chunks produced by `_split_text_for_voice`, in order, gives back exactly
the input: no character is lost, duplicated, or reordered.  (With
whitespace present, the per-chunk `strip()` calls can delete characters at
chunk boundaries.) -/
theorem claim_C7_chunk_round_trip (text : List Char) (M : ℕ) (hws : VG.noWs text) :
    (VG.split_text_for_voice text M).flatten = text := by
  rw [VG.split_text_for_voice]
  by_cases hlen : text.length ≤ M
  · rw [if_pos hlen]
    simp
  · rw [if_neg hlen]
    have hsents : ∀ s ∈ VG.splitKeep VG.vDelim text [], VG.noWs s := by
      intro s hs c hc
      apply hws
      have : c ∈ (VG.splitKeep VG.vDelim text []).flatten := List.mem_flatten.mpr ⟨s, hs, hc⟩
      rwa [splitKeep_flatten, List.reverse_nil, List.nil_append] at this
    obtain ⟨f0, f1, f2⟩ := foldl_addSentence_flatten M (VG.splitKeep VG.vDelim text [])
      ([], []) hsents (by intro x hx; cases hx) (by intro c hc; cases hc)
    rw [splitKeep_flatten, List.reverse_nil, List.nil_append] at f0
    simp only [List.flatten_nil, List.nil_append] at f0
    set st := (VG.splitKeep VG.vDelim text []).foldl (VG.addSentence M) ([], []) with hstdef
    have hchunks : (if st.2 ≠ [] then st.1 ++ [pyStrip st.2] else st.1).flatten = text ∧
        ∀ c ∈ (if st.2 ≠ [] then st.1 ++ [pyStrip st.2] else st.1), VG.noWs c := by
      by_cases hnil : st.2 ≠ []
      · rw [if_pos hnil, pyStrip_of_noWs st.2 f2]
        constructor
        · rw [List.flatten_append]
          simpa using f0
        · intro c hc
          rcases List.mem_append.mp hc with hc | hc
          · exact f1 c hc
          · rcases List.mem_singleton.mp hc with rfl
            exact f2
      · rw [if_neg hnil]
        rw [not_not] at hnil
        rw [hnil, List.append_nil] at f0
        exact ⟨f0, f1⟩
    rw [List.filter_congr (fun c hc => ?_), flatten_filter_ne_nil]
    · exact hchunks.1
    · rw [pyStrip_of_noWs c (hchunks.2 c hc)]

/-- Witness for the amended C7: a whitespace-free 13-character text over
budget 5 — its chunks concatenate back to the input. -/
theorem claim_C7_witness :
    VG.noWs ['a', 'b', '。', 'c', 'd', 'e', 'f', 'g', 'h', '。', 'i', 'j', '。'] ∧
    (VG.split_text_for_voice
        ['a', 'b', '。', 'c', 'd', 'e', 'f', 'g', 'h', '。', 'i', 'j', '。'] 5).flatten =
      ['a', 'b', '。', 'c', 'd', 'e', 'f', 'g', 'h', '。', 'i', 'j', '。'] :=
  ⟨by simp only [VG.noWs]; decide, claim_C7_chunk_round_trip
    ['a', 'b', '。', 'c', 'd', 'e', 'f', 'g', 'h', '。', 'i', 'j', '。'] 5
    (by simp only [VG.noWs]; decide)⟩

/-! ## Lemmas about audio combination -/

theorem intercalate_cons₂ (sep x y : List ℕ) (l : List (List ℕ)) :
    List.intercalate sep (x :: y :: l) = x ++ sep ++ List.intercalate sep (y :: l) := by
  simp [List.intercalate, List.intersperse]

/-- Length of an intercalation: the payload plus one separator per gap. -/
theorem intercalate_length (sep : List ℕ) :
    ∀ ls : List (List ℕ), (List.intercalate sep ls).length =
      (ls.map List.length).sum + (ls.length - 1) * sep.length := by
  intro ls
  induction ls with
  | nil => simp [List.intercalate]
  | cons x tail ih =>
    cases tail with
    | nil => simp [List.intercalate]
    | cons y l =>
      rw [intercalate_cons₂, List.length_append, List.length_append, ih]
      simp only [List.map_cons, List.sum_cons, List.length_cons, Nat.add_sub_cancel]
      ring

/-- The frame loop of `_combine_audio_files` on an all-compatible list:
each file's frames in order, one silence block per gap. -/
theorem combineFrames_ok (first : VG.WavFile) (silence : List ℕ) :
    ∀ files : List VG.WavFile, (∀ g ∈ files, VG.wavMismatch g first = false) →
      VG.combineFrames first silence files =
        .ok (List.intercalate silence (files.map VG.WavFile.frames)) := by
  intro files
  induction files with
  | nil => intro _; simp [VG.combineFrames, List.intercalate]
  | cons g tail ih =>
    intro hall
    have hg : VG.wavMismatch g first = false := hall g (List.mem_cons_self g tail)
    cases tail with
    | nil =>
      rw [VG.combineFrames, if_neg (by simp [hg])]
      simp [List.intercalate]
    | cons h l =>
      rw [VG.combineFrames, if_neg (by simp [hg])]
      rw [ih (fun q hq => hall q (List.mem_cons_of_mem g hq))]
      simp only [Except.map, List.map_cons]
      rw [intercalate_cons₂]

/-- The frame loop of `_combine_audio_files` aborts when some file is
incompatible with the first. -/
theorem combineFrames_error (first : VG.WavFile) (silence : List ℕ) :
    ∀ files : List VG.WavFile, (∃ g ∈ files, VG.wavMismatch g first = true) →
      ∃ e, VG.combineFrames first silence files = .error e := by
  intro files
  induction files with
  | nil => intro ⟨g, hg, _⟩; cases hg
  | cons g tail ih =>
    intro ⟨q, hq, hmis⟩
    by_cases hg : VG.wavMismatch g first = true
    · refine ⟨.runtimeError ("Failed to combine audio files: incompatible format"), ?_⟩
      cases tail with
      | nil => rw [VG.combineFrames, if_pos hg]
      | cons h l => rw [VG.combineFrames, if_pos hg]
    · have hq2 : q ∈ tail := by
        rcases List.mem_cons.mp hq with rfl | hq2
        · exact absurd hmis hg
        · exact hq2
      obtain ⟨e, he⟩ := ih ⟨q, hq2, hmis⟩
      cases tail with
      | nil => cases hq2
      | cons h l =>
        refine ⟨e, ?_⟩
        rw [VG.combineFrames, if_neg hg, he]
        rfl

/-! ## C8 -/

/-- Counterexample to C8 as stated: two compatible files at the (unusual
but legal) sample rate of 7 Hz combine fine, but the inserted silence is
`int(7 * 0.2) = 1` frame, i.e. `1/7` of a second — not exactly 0.2
seconds. -/
theorem claim_C8_counterexample :
    VG.combine_audio_files [⟨7, 2, 1, [1]⟩, ⟨7, 2, 1, [2]⟩] = .ok ⟨7, 2, 1, [1, 0, 2]⟩ ∧
    ¬ ((((7 : ℕ) / 5 : ℕ) : ℚ) / (7 : ℚ) = 1 / 5) := by
  constructor
  · decide
  · norm_num

/-- C8 (amended): on a non-empty chunk list headed by `f`, the combiner
fails (with a `RuntimeError`) if and only if some input's sample rate,
sample width, or channel count differs from `f`'s; otherwise the output
carries `f`'s parameters and consists of each chunk's frames in order with
`int(rate * 0.2) = ⌊rate / 5⌋` frames of silence between consecutive chunks
and none after the last, so its frame count is the sum of the chunk frame
counts plus `(n - 1) * ⌊rate / 5⌋`; that inter-chunk silence lasts exactly
0.2 seconds whenever the rate is a (positive) multiple of 5. -/
theorem claim_C8_audio_combine (f : VG.WavFile) (rest : List VG.WavFile) :
    ((∃ e, VG.combine_audio_files (f :: rest) = .error e) ↔
      (∃ g ∈ f :: rest, VG.wavMismatch g f = true)) ∧
    (∀ w, VG.combine_audio_files (f :: rest) = .ok w →
      w.rate = f.rate ∧ w.width = f.width ∧ w.channels = f.channels ∧
      w.frames = List.intercalate (List.replicate (f.rate / 5) 0)
          ((f :: rest).map VG.WavFile.frames) ∧
      w.nframes = ((f :: rest).map VG.WavFile.nframes).sum +
          rest.length * (f.rate / 5)) ∧
    (5 ∣ f.rate → 0 < f.rate →
      (((f.rate / 5 : ℕ) : ℚ) / (f.rate : ℚ) = 1 / 5)) := by
  have hself : VG.wavMismatch f f = false := by simp [VG.wavMismatch]
  have hdur : 5 ∣ f.rate → 0 < f.rate →
      (((f.rate / 5 : ℕ) : ℚ) / (f.rate : ℚ) = 1 / 5) := by
    intro ⟨k, hk⟩ hpos
    rw [hk] at hpos
    rw [hk]
    have hkpos : 0 < k := by omega
    rw [Nat.mul_div_cancel_left k (by norm_num)]
    have hk0 : ((k : ℚ)) ≠ 0 := by exact_mod_cast hkpos.ne'
    push_cast
    field_simp
    ring
  cases rest with
  | nil =>
    refine ⟨?_, ?_, hdur⟩
    · constructor
      · intro ⟨e, he⟩
        rw [VG.combine_audio_files] at he
        cases he
      · intro ⟨g, hg, hmis⟩
        rcases List.mem_singleton.mp hg with rfl
        rw [hself] at hmis
        cases hmis
    · intro w hw
      rw [VG.combine_audio_files] at hw
      cases hw
      refine ⟨rfl, rfl, rfl, ?_, ?_⟩
      · simp [List.intercalate]
      · simp [VG.WavFile.nframes]
  | cons h l =>
    have hcomb : VG.combine_audio_files (f :: h :: l) =
        (VG.combineFrames f (List.replicate (f.rate / 5) 0) (f :: h :: l)).map
          (fun frames => ⟨f.rate, f.width, f.channels, frames⟩) := by
      rw [VG.combine_audio_files]
    refine ⟨?_, ?_, hdur⟩
    · constructor
      · intro ⟨e, he⟩
        by_contra hno
        push_neg at hno
        have hall : ∀ g ∈ f :: h :: l, VG.wavMismatch g f = false := by
          intro g hg
          exact Bool.not_eq_true _ |>.mp (fun ht => by
            have := hno g hg
            exact absurd ht (by simp [this]))
        rw [hcomb, combineFrames_ok f _ _ hall] at he
        cases he
      · intro ⟨g, hg, hmis⟩
        obtain ⟨e, he⟩ := combineFrames_error f (List.replicate (f.rate / 5) 0)
          (f :: h :: l) ⟨g, hg, hmis⟩
        refine ⟨e, ?_⟩
        rw [hcomb, he]
        rfl
    · intro w hw
      have hall : ∀ g ∈ f :: h :: l, VG.wavMismatch g f = false := by
        intro g hg
        by_contra hgt
        obtain ⟨e, he⟩ := combineFrames_error f (List.replicate (f.rate / 5) 0)
          (f :: h :: l) ⟨g, hg, by simpa using hgt⟩
        rw [hcomb, he] at hw
        cases hw
      rw [hcomb, combineFrames_ok f _ _ hall] at hw
      cases hw
      refine ⟨rfl, rfl, rfl, rfl, ?_⟩
      show (List.intercalate (List.replicate (f.rate / 5) 0)
          ((f :: h :: l).map VG.WavFile.frames)).length = _
      rw [intercalate_length]
      simp only [List.map_map, List.length_map, List.length_cons, List.length_replicate,
        Nat.add_sub_cancel]
      congr 1

/-- Witness for the amended C8 at two compatible 24000 Hz chunks: the iff,
the frame layout, and the exact-0.2s silence all instantiate. -/
theorem claim_C8_witness :
    ((∃ e, VG.combine_audio_files [⟨24000, 2, 1, [1, 2]⟩, ⟨24000, 2, 1, [3]⟩] = .error e) ↔
      (∃ g ∈ [(⟨24000, 2, 1, [1, 2]⟩ : VG.WavFile), ⟨24000, 2, 1, [3]⟩],
        VG.wavMismatch g ⟨24000, 2, 1, [1, 2]⟩ = true)) ∧
    (∀ w, VG.combine_audio_files [⟨24000, 2, 1, [1, 2]⟩, ⟨24000, 2, 1, [3]⟩] = .ok w →
      w.rate = 24000 ∧ w.width = 2 ∧ w.channels = 1 ∧
      w.frames = List.intercalate (List.replicate 4800 0) [[1, 2], [3]] ∧
      w.nframes = 3 + 1 * 4800) ∧
    (((24000 / 5 : ℕ) : ℚ) / (24000 : ℚ) = 1 / 5) := by
  obtain ⟨h1, h2, h3⟩ := claim_C8_audio_combine ⟨24000, 2, 1, [1, 2]⟩ [⟨24000, 2, 1, [3]⟩]
  exact ⟨h1, h2, h3 (by norm_num) (by norm_num)⟩

/-! ## C10 -/

/-- C10: on an empty or whitespace-only script, both `generate_voice` and
`generate_long_voice` raise `ValueError("Script text cannot be empty")`
before anything else happens: the returned action log is empty, so no
preprocessing is done, no engine request is made, and no audio file is
created. -/
theorem claim_C10_empty_script (env : VG.Voicevox) (script : List Char) (M : ℕ)
    (h : pyStrip script = []) :
    VG.generate_voice env script =
      (.error (.valueError ("Script text cannot be empty")), []) ∧
    VG.generate_long_voice env script M =
      (.error (.valueError ("Script text cannot be empty")), []) := by
  have hb : VG.blankScript script = true := by
    rw [VG.blankScript, h]
    simp
  constructor
  · rw [VG.generate_voice, if_pos hb]
  · rw [VG.generate_long_voice, if_pos hb]

/-- Witness for C10 on the whitespace-only script `" \n "` with an engine
that would answer every request successfully. -/
theorem claim_C10_witness :
    pyStrip [' ', '\n', ' '] = [] ∧
    VG.generate_voice ⟨fun _ => .ok (), .ok ()⟩ [' ', '\n', ' '] =
      (.error (.valueError ("Script text cannot be empty")), []) ∧
    VG.generate_long_voice ⟨fun _ => .ok (), .ok ()⟩ [' ', '\n', ' '] 200 =
      (.error (.valueError ("Script text cannot be empty")), []) := by
  obtain ⟨h1, h2⟩ := claim_C10_empty_script ⟨fun _ => .ok (), .ok ()⟩ [' ', '\n', ' '] 200
    (by decide)
  exact ⟨by decide, h1, h2⟩

end VideoAI
